import Mathlib

/-!
# Verification of opendlv-video-h264-recorder (src/opendlv-video-h264-recorder.cpp)

A shallow embedding of the recorder's `main` in Lean 4.  The program
attaches to a shared-memory region, opens a recording file, optionally
subscribes to an OD4 session forwarding envelopes into the same file,
and runs a capture loop: wait for a frame, take a sample timestamp,
snapshot the region bytes under the region lock, and (behind the guard
`0 < totalSize`, where `totalSize` is initialised to 0 and never
updated) build and append an Envelope.

External capabilities that live outside this repository
(libcluon's proto encoder, envelope serializer, the message-set id of
`opendlv.proxy.ImageReading`) are modelled as parameters or, where a
fixed value is needed, as constants modelled from the spec.
-/

/-- cluon::data::TimeStamp: seconds and microseconds. -/
structure TimeStamp where
  seconds : Int
  microseconds : Int
deriving DecidableEq, Repr

/-- opendlv::proxy::ImageReading as populated at lines 122-126:
fourcc, width, height and the raw data bytes. -/
structure ImageReading where
  fourcc : String
  width : Nat
  height : Nat
  data : List Nat
deriving DecidableEq, Repr

/-- Modelled from the spec: the numeric message id of
`opendlv.proxy.ImageReading` comes from the external standard message
set (`ir.ID()` at line 132), which is not part of this repository; the
claims only require it to be a fixed integer. -/
def imageReadingID : Int := 1055

/-- cluon::data::Envelope restricted to the fields `main` populates at
lines 128-138: dataType, serializedData, sent, sampleTimeStamp,
senderStamp. -/
structure Envelope where
  dataType : Int
  serializedData : List Nat
  sent : TimeStamp
  sampleTimeStamp : TimeStamp
  senderStamp : Nat
deriving DecidableEq, Repr

/-- Line 118: `std::string data{sharedMemory->data(), sharedMemory->size()};`
copies exactly `size` bytes out of the region, whatever the
width/height arguments were.  `content` gives the region byte at each
offset while the frame is held. -/
def snapshotData (shmSize : Nat) (content : Nat → Nat) : List Nat :=
  (List.range shmSize).map content

/-- Lines 122-126: the ImageReading is populated with fourcc "xyz", the
configured WIDTH and HEIGHT, and the snapshot bytes. -/
def imageReadingOf (WIDTH HEIGHT : Nat) (dataBytes : List Nat) : ImageReading :=
  { fourcc := "xyz", width := WIDTH, height := HEIGHT, data := dataBytes }

/-- Lines 109-116: `sampleTimeStamp = cluon::time::now();` right after the
wait, then under the region lock `auto r = sharedMemory->getTimeStamp();
sampleTimeStamp = (r.first ? r.second : sampleTimeStamp);`.
`r` is the pair returned by the shared-memory adapter. -/
def selectSampleTimeStamp (r : Bool × TimeStamp) (nowAfterWait : TimeStamp) : TimeStamp :=
  if r.1 then r.2 else nowAfterWait

/-- Lines 128-138: envelope construction.  `protoEncode` stands for
libcluon's ToProtoVisitor applied to the ImageReading (external
capability); `nowAtBuild` is the value `cluon::time::now()` returns at
line 135. -/
def buildEnvelope (protoEncode : ImageReading → List Nat) (nowAtBuild : TimeStamp)
    (ir : ImageReading) (ID : Nat) (sampleTimeStamp : TimeStamp) : Envelope :=
  { dataType := imageReadingID
    serializedData := protoEncode ir
    sent := nowAtBuild
    sampleTimeStamp := sampleTimeStamp
    senderStamp := ID }

/-- Line 111: `int totalSize{0};` — declared zero at the top of each
iteration and never assigned again before the comparison at line 121. -/
def totalSizeComputed : Int := 0

/-- One frame delivered by the shared-memory adapter, together with the
values the external clock capability returns during its iteration. -/
structure Frame where
  /-- result of `sharedMemory->getTimeStamp()` (line 115). -/
  notif : Bool × TimeStamp
  /-- region byte at each offset while this frame is held (line 118). -/
  content : Nat → Nat
  /-- value of `cluon::time::now()` at line 109, just after the wait. -/
  nowAfterWait : TimeStamp
  /-- value `cluon::time::now()` would return at line 135. -/
  nowAtBuild : TimeStamp

/-- The verbose diagnostic line printed at line 152. -/
def savedLogLine : String := "[opendlv-video-xyz-recorder]: XYZ frame saved."

/-- One capture-loop iteration (lines 106-154), generalised over the
value `totalSize` holds at the comparison `0 < totalSize` (line 121).
The concrete code always reaches that comparison with
`totalSizeComputed = 0`; see `captureIteration`.  Returns the updated
recording-file contents (as a list of appended envelopes) and the
diagnostic log lines. -/
def captureIterationG (protoEncode : ImageReading → List Nat) (shmSize : Nat)
    (WIDTH HEIGHT ID : Nat) (totalSize : Int) (VERBOSE : Bool) (fr : Frame)
    (file : List Envelope) (log : List String) : List Envelope × List String :=
  let sampleTS := selectSampleTimeStamp fr.notif fr.nowAfterWait
  let dataBytes := snapshotData shmSize fr.content
  if 0 < totalSize then
    let ir := imageReadingOf WIDTH HEIGHT dataBytes
    let env := buildEnvelope protoEncode fr.nowAtBuild ir ID sampleTS
    (file ++ [env], log ++ (if VERBOSE then [savedLogLine] else []))
  else
    (file, log)

/-- One capture-loop iteration exactly as the code runs it: `totalSize`
is the value the code computes, namely `totalSizeComputed = 0`. -/
def captureIteration (protoEncode : ImageReading → List Nat) (shmSize : Nat)
    (WIDTH HEIGHT ID : Nat) (VERBOSE : Bool) (fr : Frame)
    (file : List Envelope) (log : List String) : List Envelope × List String :=
  captureIterationG protoEncode shmSize WIDTH HEIGHT ID totalSizeComputed VERBOSE fr file log

/-- The capture loop run over a finite sequence of delivered frames
(no bus channel: CID = 0 means `od4` stays null and only the capture
path writes), generalised over `totalSize` like `captureIterationG`. -/
def runCaptureG (protoEncode : ImageReading → List Nat) (shmSize : Nat)
    (WIDTH HEIGHT ID : Nat) (totalSize : Int) (VERBOSE : Bool) :
    List Frame → List Envelope → List String → List Envelope × List String
  | [], file, log => (file, log)
  | fr :: rest, file, log =>
      runCaptureG protoEncode shmSize WIDTH HEIGHT ID totalSize VERBOSE rest
        (captureIterationG protoEncode shmSize WIDTH HEIGHT ID totalSize VERBOSE fr file log).1
        (captureIterationG protoEncode shmSize WIDTH HEIGHT ID totalSize VERBOSE fr file log).2

/-- The capture loop as the code runs it (`totalSize = totalSizeComputed`). -/
def runCapture (protoEncode : ImageReading → List Nat) (shmSize : Nat)
    (WIDTH HEIGHT ID : Nat) (VERBOSE : Bool) (frames : List Frame)
    (file : List Envelope) (log : List String) : List Envelope × List String :=
  runCaptureG protoEncode shmSize WIDTH HEIGHT ID totalSizeComputed VERBOSE frames file log

/-- Process exit status (lines 34, 50, 156-163): `retCode` starts at 1;
if the required arguments are present and the shared-memory attach
succeeded, `retCode = 0` is executed at line 157 — note this happens
whether or not `recFile.good()` held at line 90, because line 157 sits
outside the `if (recFile.good())` block. -/
def mainRetCode (argsOK shmValid recFileGood : Bool) : Int :=
  if argsOK then
    if shmValid then 0 else 1
  else 1

/-! ## Event-trace model of the capture loop (lines 105-155)

For the temporal claims we record the sequence of externally visible
actions one iteration performs, in program order. -/

/-- Atomic actions of the capture loop, in the order the code performs
them. -/
inductive Ev where
  /-- loading `isTerminated` in the while condition (line 105), with the
  value read. -/
  | checkTerm (flag : Bool)
  /-- `sharedMemory->wait()` (line 107). -/
  | waitFrame
  /-- `sampleTimeStamp = cluon::time::now()` (line 109). -/
  | sampleNow
  /-- `sharedMemory->lock()` (line 112). -/
  | lockShm
  /-- `sharedMemory->getTimeStamp()` (line 115). -/
  | readNotifTS
  /-- copying the region bytes into `data` (line 118). -/
  | copyData
  /-- `sharedMemory->unlock()` (line 119). -/
  | unlockShm
  /-- building the ImageReading and proto-encoding it into the envelope
  (lines 122-138). -/
  | encodeEnvelope
  /-- `std::lock_guard<std::mutex> lck(recFileMutex)` (line 141). -/
  | lockFile
  /-- `serializeEnvelope` + `recFile.write(...)` (lines 142-143). -/
  | writeEnvelope
  /-- `recFile.flush()` (line 144). -/
  | flushFile
  /-- `afterWriting = cluon::time::now()` (line 147, verbose only). -/
  | afterWritingNow
  /-- releasing `recFileMutex` at the end of the scope (line 149). -/
  | unlockFile
  /-- the `std::clog` diagnostic (line 152, verbose only). -/
  | logSaved
deriving DecidableEq, Repr

/-- The actions of one loop body (lines 107-154), in program order,
generalised over the value of `totalSize` at line 121 (the code always
has `totalSizeComputed = 0` there). -/
def iterationEvents (totalSize : Int) (VERBOSE : Bool) : List Ev :=
  [Ev.waitFrame, Ev.sampleNow, Ev.lockShm, Ev.readNotifTS, Ev.copyData, Ev.unlockShm] ++
  (if 0 < totalSize then
    [Ev.encodeEnvelope, Ev.lockFile, Ev.writeEnvelope, Ev.flushFile] ++
    (if VERBOSE then [Ev.afterWritingNow] else []) ++ [Ev.unlockFile] ++
    (if VERBOSE then [Ev.logSaved] else [])
  else [])

/-- Pair every event of a trace with whether the shared-memory region
lock is held while that event executes (`held` is the state before the
trace starts; `lockShm` itself executes unlocked, `unlockShm` executes
while still holding the lock). -/
def annotateShmLock (held : Bool) : List Ev → List (Ev × Bool)
  | [] => []
  | Ev.lockShm :: rest => (Ev.lockShm, held) :: annotateShmLock true rest
  | Ev.unlockShm :: rest => (Ev.unlockShm, held) :: annotateShmLock false rest
  | e :: rest => (e, held) :: annotateShmLock held rest

/-- The while loop (line 105): each time around, the condition reads the
termination flag (`flags` lists the successive values read; the list's
length bounds how far we unfold the loop); if the region is invalid the
condition short-circuits before loading the flag and the loop exits; if
the flag reads true the loop exits; otherwise the body runs. -/
def loopEvents (valid : Bool) (totalSize : Int) (VERBOSE : Bool) : List Bool → List Ev
  | [] => []
  | f :: rest =>
      if valid then
        if f then [Ev.checkTerm true]
        else Ev.checkTerm false :: (iterationEvents totalSize VERBOSE ++
          loopEvents valid totalSize VERBOSE rest)
      else []

/-! ## The merged log writer (lines 88, 96-102, 141-149)

Both the capture loop and the OD4 callback append to `recFile` only
while holding `recFileMutex`, and flush before releasing it.  We model
the writer as a small-step machine over byte-level writes: a thread
acquires the mutex with the serialized envelope it is about to append,
writes the bytes one at a time, and the flush-and-release step is only
enabled once all bytes are written.  Ghost fields record the envelopes
in mutex-acquisition order and in completion order. -/

/-- State of the merged log writer.  `current = some (t, done, rem)`
means thread `t` holds `recFileMutex`, has already written `done`, and
still has `rem` to write. -/
structure WriterState where
  file : List Nat
  current : Option (Nat × List Nat × List Nat)
  /-- serialized envelopes in the order their `append` acquired the mutex. -/
  acquired : List (List Nat)
  /-- serialized envelopes whose write-plus-flush has completed, in order. -/
  completed : List (List Nat)
deriving DecidableEq, Repr

/-- Steps of the writer machine, each tagged with the acting thread. -/
inductive WStep where
  | acquire (t : Nat) (env : List Nat)
  | writeByte (t : Nat)
  | flushRelease (t : Nat)
deriving DecidableEq, Repr

/-- One step of the writer machine; `none` when the step is not enabled
(the mutex blocks it). -/
def wstep (s : WriterState) : WStep → Option WriterState
  | WStep.acquire t env =>
      match s.current with
      | none => some { s with current := some (t, [], env), acquired := s.acquired ++ [env] }
      | some _ => none
  | WStep.writeByte t =>
      match s.current with
      | some (t', done, b :: rem) =>
          if t' = t then
            some { s with file := s.file ++ [b], current := some (t', done ++ [b], rem) }
          else none
      | _ => none
  | WStep.flushRelease t =>
      match s.current with
      | some (t', done, []) =>
          if t' = t then
            some { s with current := none, completed := s.completed ++ [done] }
          else none
      | _ => none

/-- Run the writer machine over a schedule of steps. -/
def wrun (s : WriterState) : List WStep → Option WriterState
  | [] => some s
  | st :: rest =>
      match wstep s st with
      | none => none
      | some s' => wrun s' rest

/-- Initial writer state: file truncated at open (line 89), mutex free. -/
def winit : WriterState :=
  { file := [], current := none, acquired := [], completed := [] }

/-- The writer invariant: the file is the concatenation of the fully
appended envelopes in acquisition order, plus the already-written prefix
of the in-flight envelope when the mutex is held; completion order
coincides with acquisition order. -/
def winv (s : WriterState) : Prop :=
  match s.current with
  | none => s.acquired = s.completed ∧ s.file = s.completed.flatten
  | some (_, done, rem) =>
      s.acquired = s.completed ++ [done ++ rem] ∧ s.file = s.completed.flatten ++ done

/-! ## Theorems -/

/-- C2: In every capture iteration, the branch guarded by `0 < totalSize`
(line 121) never executes, because `totalSize` is always zero at the
comparison (`int totalSize{0};`, line 111, never reassigned); the
capture path therefore appends no envelope and leaves the file
unchanged. -/
theorem c2_dead_branch_no_append (protoEncode : ImageReading → List Nat)
    (shmSize WIDTH HEIGHT ID : Nat) (VERBOSE : Bool) (fr : Frame)
    (file : List Envelope) (log : List String) :
    totalSizeComputed = 0 ∧ ¬ (0 < totalSizeComputed) ∧
    (captureIteration protoEncode shmSize WIDTH HEIGHT ID VERBOSE fr file log).1 = file ∧
    (captureIteration protoEncode shmSize WIDTH HEIGHT ID VERBOSE fr file log).1.length
      = file.length := by
  refine ⟨rfl, by decide, rfl, rfl⟩

/-- C1 is refuted by the code: a run with a valid shared-memory region,
an empty output file, no bus channel, and three delivered frames
appends zero envelopes, not three — `totalSize` is always 0, so the
append branch never runs.  Evaluated here at a concrete three-frame
input (region of 12 bytes, arbitrary timestamps). -/
theorem c1_three_frames_yield_zero_envelopes :
    (runCapture (fun _ => []) 12 640 480 7 false
      [ { notif := (true, ⟨0, 0⟩), content := fun _ => 0,
          nowAfterWait := ⟨0, 1⟩, nowAtBuild := ⟨0, 2⟩ },
        { notif := (true, ⟨0, 10000⟩), content := fun _ => 1,
          nowAfterWait := ⟨0, 10001⟩, nowAtBuild := ⟨0, 10002⟩ },
        { notif := (true, ⟨0, 20000⟩), content := fun _ => 2,
          nowAfterWait := ⟨0, 20001⟩, nowAtBuild := ⟨0, 20002⟩ } ]
      [] []).1.length = 0 ∧ (0 : Nat) ≠ 3 := by
  exact ⟨rfl, by decide⟩

/-- C4: the envelope's sampleTimeStamp is the adapter's notification
timestamp when `getTimeStamp()` reports one (`r.first` true), and
otherwise the `cluon::time::now()` value taken just after the wait
returned (lines 109-116). -/
theorem c4_sample_timestamp_selection :
    (∀ (t nowAfterWait : TimeStamp),
        selectSampleTimeStamp (true, t) nowAfterWait = t) ∧
    (∀ (t nowAfterWait : TimeStamp),
        selectSampleTimeStamp (false, t) nowAfterWait = nowAfterWait) :=
  ⟨fun _ _ => rfl, fun _ _ => rfl⟩

/-- C5: envelope construction (lines 128-138) fully populates the
envelope: dataType is the ImageReading message id, serializedData is the
proto encoding of the ImageReading carrying the snapshot bytes and the
configured width/height/fourcc, senderStamp is the configured id,
sampleTimeStamp is the captured sample timestamp, and sent is the
current time taken at build time. -/
theorem c5_envelope_fully_populated (protoEncode : ImageReading → List Nat)
    (nowAtBuild : TimeStamp) (WIDTH HEIGHT ID : Nat) (dataBytes : List Nat)
    (sampleTS : TimeStamp) :
    (buildEnvelope protoEncode nowAtBuild (imageReadingOf WIDTH HEIGHT dataBytes)
        ID sampleTS).dataType = imageReadingID ∧
    (buildEnvelope protoEncode nowAtBuild (imageReadingOf WIDTH HEIGHT dataBytes)
        ID sampleTS).serializedData
      = protoEncode { fourcc := "xyz", width := WIDTH, height := HEIGHT, data := dataBytes } ∧
    (buildEnvelope protoEncode nowAtBuild (imageReadingOf WIDTH HEIGHT dataBytes)
        ID sampleTS).senderStamp = ID ∧
    (buildEnvelope protoEncode nowAtBuild (imageReadingOf WIDTH HEIGHT dataBytes)
        ID sampleTS).sampleTimeStamp = sampleTS ∧
    (buildEnvelope protoEncode nowAtBuild (imageReadingOf WIDTH HEIGHT dataBytes)
        ID sampleTS).sent = nowAtBuild :=
  ⟨rfl, rfl, rfl, rfl, rfl⟩

/-- C9: the snapshot copied out of shared memory (line 118) has length
equal to the region's size, independent of the width/height arguments;
width and height populate only the ImageReading metadata (lines
124-125) and never bound or resize the payload bytes. -/
theorem c9_snapshot_length_is_region_size (shmSize : Nat) (content : Nat → Nat)
    (WIDTH HEIGHT : Nat) :
    (snapshotData shmSize content).length = shmSize ∧
    (imageReadingOf WIDTH HEIGHT (snapshotData shmSize content)).data
      = snapshotData shmSize content ∧
    (imageReadingOf WIDTH HEIGHT (snapshotData shmSize content)).width = WIDTH ∧
    (imageReadingOf WIDTH HEIGHT (snapshotData shmSize content)).height = HEIGHT ∧
    (∀ W H : Nat,
      (imageReadingOf W H (snapshotData shmSize content)).data
        = (imageReadingOf WIDTH HEIGHT (snapshotData shmSize content)).data) := by
  refine ⟨?_, rfl, rfl, rfl, fun _ _ => rfl⟩
  simp [snapshotData]

/-- Helper for C10: one iteration's file component does not depend on
the VERBOSE flag, for any value of `totalSize`. -/
theorem captureIterationG_file_ignores_verbose (protoEncode : ImageReading → List Nat)
    (shmSize WIDTH HEIGHT ID : Nat) (totalSize : Int) (v v' : Bool) (fr : Frame)
    (file : List Envelope) (log log' : List String) :
    (captureIterationG protoEncode shmSize WIDTH HEIGHT ID totalSize v fr file log).1
      = (captureIterationG protoEncode shmSize WIDTH HEIGHT ID totalSize v' fr file log').1 := by
  unfold captureIterationG
  by_cases h : 0 < totalSize <;> simp [h]

/-- C10: two runs differing only in the `--verbose` flag but receiving
identical frames and timestamps write identical contents to the
recording file: VERBOSE only influences diagnostic logging (lines
146-153), never the recorded data.  Stated for any value of
`totalSize`, so it covers the live branch as well as the code's actual
dead one. -/
theorem c10_verbose_does_not_change_file (protoEncode : ImageReading → List Nat)
    (shmSize WIDTH HEIGHT ID : Nat) (totalSize : Int) (frames : List Frame)
    (file : List Envelope) (log log' : List String) :
    (runCaptureG protoEncode shmSize WIDTH HEIGHT ID totalSize true frames file log).1
      = (runCaptureG protoEncode shmSize WIDTH HEIGHT ID totalSize false frames file log').1 := by
  induction frames generalizing file log log' with
  | nil => rfl
  | cons fr rest ih =>
      unfold runCaptureG
      have hfile := captureIterationG_file_ignores_verbose protoEncode shmSize WIDTH HEIGHT ID
        totalSize true false fr file log log'
      rw [hfile]
      exact ih _ _ _

/-- C3 counterexample: with the required arguments present, a valid
shared-memory attach, but a recording file that could NOT be opened
(`recFile.good()` false at line 90), the process still exits 0 — the
assignment `retCode = 0` at line 157 sits outside the
`if (recFile.good())` block, so the claimed non-zero status for a
failed file open does not happen. -/
theorem c3_file_open_failure_still_exits_zero :
    mainRetCode true true false = 0 ∧ ¬ (mainRetCode true true false ≠ 0) := by
  exact ⟨rfl, by decide⟩

/-- C3 amended: the exit status is zero iff the required arguments were
present and the shared-memory attach succeeded; whether the output file
could be opened has no effect on the exit status (and a run terminated
mid-run by the termination flag also exits zero, since the loop body
never touches `retCode`). -/
theorem c3_exit_zero_iff_args_and_attach :
    ∀ argsOK shmValid recFileGood : Bool,
      mainRetCode argsOK shmValid recFileGood = 0 ↔ (argsOK = true ∧ shmValid = true) := by
  decide

/-- One enabled step of the writer machine preserves the writer
invariant. -/
theorem wstep_preserves_winv {s s' : WriterState} {st : WStep}
    (hinv : winv s) (hstep : wstep s st = some s') : winv s' := by
  cases st with
  | acquire t env =>
      cases hc : s.current with
      | none =>
          simp only [wstep, hc, Option.some.injEq] at hstep
          subst hstep
          simp only [winv, hc] at hinv
          simp only [winv]
          refine ⟨?_, ?_⟩
          · rw [hinv.1]; simp
          · rw [hinv.2]; simp
      | some c => simp [wstep, hc] at hstep
  | writeByte t =>
      cases hc : s.current with
      | none => simp [wstep, hc] at hstep
      | some c =>
          obtain ⟨t', done, rem⟩ := c
          cases rem with
          | nil => simp [wstep, hc] at hstep
          | cons b rem' =>
              simp only [wstep, hc] at hstep
              by_cases ht : t' = t
              · rw [if_pos ht] at hstep
                simp only [Option.some.injEq] at hstep
                subst hstep
                simp only [winv, hc] at hinv
                simp only [winv]
                refine ⟨?_, ?_⟩
                · rw [hinv.1]; simp
                · rw [hinv.2]; simp
              · rw [if_neg ht] at hstep
                exact absurd hstep (by simp)
  | flushRelease t =>
      cases hc : s.current with
      | none => simp [wstep, hc] at hstep
      | some c =>
          obtain ⟨t', done, rem⟩ := c
          cases rem with
          | cons b rem' => simp [wstep, hc] at hstep
          | nil =>
              simp only [wstep, hc] at hstep
              by_cases ht : t' = t
              · rw [if_pos ht] at hstep
                simp only [Option.some.injEq] at hstep
                subst hstep
                simp only [winv, hc] at hinv
                simp only [winv]
                refine ⟨?_, ?_⟩
                · rw [hinv.1]; simp
                · rw [hinv.2]; simp
              · rw [if_neg ht] at hstep
                exact absurd hstep (by simp)

/-- Running the writer machine from an invariant state keeps the
invariant. -/
theorem wrun_preserves_winv :
    ∀ (ss : List WStep) (s s' : WriterState), winv s → wrun s ss = some s' → winv s' := by
  intro ss
  induction ss with
  | nil =>
      intro s s' hinv hrun
      rw [wrun] at hrun
      simp only [Option.some.injEq] at hrun
      subst hrun
      exact hinv
  | cons st rest ih =>
      intro s s' hinv hrun
      rw [wrun] at hrun
      cases hstep : wstep s st with
      | none => rw [hstep] at hrun; exact absurd hrun (by simp)
      | some s1 =>
          rw [hstep] at hrun
          exact ih s1 s' (wstep_preserves_winv hinv hstep) hrun

/-- C6: for every schedule of concurrent append submissions that the
writer machine can execute from the initial (truncated) file, the file
is the concatenation of fully serialized envelopes in
mutex-acquisition order — when the mutex is free the file is exactly
`acquired.flatten` and completion order equals acquisition order; when
a thread holds the mutex the file is the completed envelopes followed
by the already-written prefix of the in-flight envelope, so no two
envelopes' bytes ever interleave, and each envelope's write-plus-flush
completes under the mutex before the next acquire is enabled. -/
theorem c6_writer_no_interleaving (ss : List WStep) (s : WriterState)
    (hrun : wrun winit ss = some s) :
    (s.current = none → s.file = s.acquired.flatten ∧ s.acquired = s.completed) ∧
    (∀ t done rem, s.current = some (t, done, rem) →
        s.file = s.completed.flatten ++ done ∧ s.acquired = s.completed ++ [done ++ rem]) := by
  have hinv : winv s := wrun_preserves_winv ss winit s (by unfold winv winit; simp) hrun
  constructor
  · intro hc
    unfold winv at hinv
    rw [hc] at hinv
    exact ⟨by rw [hinv.2, hinv.1], hinv.1⟩
  · intro t done rem hc
    unfold winv at hinv
    rw [hc] at hinv
    exact ⟨hinv.2, hinv.1⟩

/-- Witness for C6: a concrete interleaved schedule — thread 0 appends
[1, 2], then thread 1 appends [3]; the final file is the concatenation
of both envelopes in acquisition order. -/
theorem c6_writer_no_interleaving_witness :
    wrun winit
        [WStep.acquire 0 [1, 2], WStep.writeByte 0, WStep.writeByte 0, WStep.flushRelease 0,
         WStep.acquire 1 [3], WStep.writeByte 1, WStep.flushRelease 1]
      = some { file := [1, 2, 3], current := none,
               acquired := [[1, 2], [3]], completed := [[1, 2], [3]] } ∧
    ([1, 2, 3] : List Nat) = ([[1, 2], [3]] : List (List Nat)).flatten := by
  refine ⟨rfl, ?_⟩
  have h := (c6_writer_no_interleaving
    [WStep.acquire 0 [1, 2], WStep.writeByte 0, WStep.writeByte 0, WStep.flushRelease 0,
     WStep.acquire 1 [3], WStep.writeByte 1, WStep.flushRelease 1]
    { file := [1, 2, 3], current := none,
      acquired := [[1, 2], [3]], completed := [[1, 2], [3]] } rfl).1 rfl
  exact h.1

/-- C7: in every capture iteration — for any value of `totalSize` at
the guard and any verbosity — the region lock taken at line 112 is
released (line 119) immediately after the frame bytes are copied out
(line 118): the event following `copyData` is always `unlockShm`, and
the region lock is never held while the envelope is encoded or while
the file write/flush runs. -/
theorem c7_region_lock_not_held_during_io (totalSize : Int) (VERBOSE : Bool) :
    (∀ p ∈ (iterationEvents totalSize VERBOSE).zip (iterationEvents totalSize VERBOSE).tail,
        p.1 = Ev.copyData → p.2 = Ev.unlockShm) ∧
    (∀ p ∈ annotateShmLock false (iterationEvents totalSize VERBOSE),
        (p.1 = Ev.encodeEnvelope ∨ p.1 = Ev.writeEnvelope ∨ p.1 = Ev.flushFile) →
        p.2 = false) := by
  by_cases h : 0 < totalSize <;> cases VERBOSE <;>
    simp only [iterationEvents, h, if_true, if_false, reduceIte] <;> decide

/-- Witness for C7 at a concrete iteration (`totalSize = 1`, verbose):
the pair (copyData, unlockShm) is a consecutive pair of the trace, and
`encodeEnvelope` executes with the region lock not held. -/
theorem c7_region_lock_witness :
    ((Ev.copyData, Ev.unlockShm) ∈
        (iterationEvents 1 true).zip (iterationEvents 1 true).tail) ∧
    Ev.unlockShm = Ev.unlockShm ∧
    ((Ev.encodeEnvelope, false) ∈ annotateShmLock false (iterationEvents 1 true)) ∧
    (false : Bool) = false := by
  refine ⟨by decide, ?_, by decide, ?_⟩
  · exact (c7_region_lock_not_held_during_io 1 true).1 (Ev.copyData, Ev.unlockShm)
      (by decide) rfl
  · exact (c7_region_lock_not_held_during_io 1 true).2 (Ev.encodeEnvelope, false)
      (by decide) (Or.inl rfl)

/-- Unfolding: an invalid region exits the loop before reading the flag. -/
theorem loopEvents_invalid (totalSize : Int) (VERBOSE : Bool) (f : Bool) (rest : List Bool) :
    loopEvents false totalSize VERBOSE (f :: rest) = [] := rfl

/-- Unfolding: a termination flag read as true ends the trace at that check. -/
theorem loopEvents_cons_true (totalSize : Int) (VERBOSE : Bool) (rest : List Bool) :
    loopEvents true totalSize VERBOSE (true :: rest) = [Ev.checkTerm true] := rfl

/-- Unfolding: a termination flag read as false runs one full body. -/
theorem loopEvents_cons_false (totalSize : Int) (VERBOSE : Bool) (rest : List Bool) :
    loopEvents true totalSize VERBOSE (false :: rest)
      = Ev.checkTerm false ::
          (iterationEvents totalSize VERBOSE ++ loopEvents true totalSize VERBOSE rest) := rfl

/-- C8: the loop trace is a sequence of complete iteration bodies, each
immediately preceded by a termination check that read false, followed
by at most one final termination check that read true at which the
trace ends — so once the flag is set no new wait begins (the first
event of an iteration body is the wait, and nothing follows a positive
check), and an iteration already past its check runs to completion,
its write and flush included when `totalSize` enables them. -/
theorem c8_graceful_shutdown (valid : Bool) (totalSize : Int) (VERBOSE : Bool)
    (flags : List Bool) :
    (iterationEvents totalSize VERBOSE).head? = some Ev.waitFrame ∧
    ∃ n : Nat, ∃ t : List Ev,
      (t = [] ∨ t = [Ev.checkTerm true]) ∧
      loopEvents valid totalSize VERBOSE flags
        = (List.replicate n (Ev.checkTerm false :: iterationEvents totalSize VERBOSE)).flatten
          ++ t := by
  refine ⟨rfl, ?_⟩
  induction flags with
  | nil => exact ⟨0, [], Or.inl rfl, rfl⟩
  | cons f rest ih =>
      cases hv : valid with
      | false => exact ⟨0, [], Or.inl rfl, rfl⟩
      | true =>
          rw [hv] at ih
          cases f with
          | true => exact ⟨0, [Ev.checkTerm true], Or.inr rfl, rfl⟩
          | false =>
              obtain ⟨n, t, ht, heq⟩ := ih
              refine ⟨n + 1, t, ht, ?_⟩
              rw [loopEvents_cons_false, heq, List.replicate_succ, List.flatten_cons]
              simp [List.append_assoc]
